import Mathlib

/-!
Verification of the request-validation adapter in `src/index.ts` of the
`next-api` repository.

The adapter (`apiHandler`) wraps a Next.js route handler with declarative
request validation (body, query, path segments, headers), an optional
pre-handler hook, and a uniform error-response shape.  This file gives a
shallow embedding of that TypeScript code and proves (or refutes) the frozen
claims about it.

Modelling conventions:
* JSON values are the inductive `Json` below.  JSON numbers are restricted to
  integers in this model (the repository's responses and the claims only ever
  involve integer numbers and strings).
* The external JSON text layer (`JSON.stringify` / `JSON.parse`) is modelled
  by `JsString`: a string is either raw text (parsed by the executable
  `jsonParse` below) or the serialization of a JSON value, for which the
  library contract `parse (stringify v) = v` holds by provenance.
* Zod object schemas (`z.AnyZodObject`) are modelled as the capability
  `ObjectSchema := JsValue -> SafeParseReturn`, following the spec's own
  abstraction; a successful parse of an object schema yields object-shaped
  data.
* `NextResponse.json(body, {status})` and `new NextResponse(text, {status})`
  are modelled by the two constructors of `NextResponse`.
-/

/-- A JSON value.  Object fields are an ordered association list; JavaScript
objects cannot repeat keys, so key-uniqueness is assumed where it matters and
stated as a hypothesis. -/
inductive Json where
  | null
  | bool (b : Bool)
  | num (n : Int)
  | str (s : String)
  | arr (elems : List Json)
  | obj (fields : List (String × Json))

/-- The empty JSON object, the initial value of every per-field context slot. -/
def emptyObj : Json := Json.obj []

/-- Whether a JSON value is an object. -/
def Json.isObj : Json → Bool
  | .obj _ => true
  | _ => false

/-- Escape one character for a JSON string literal. -/
def escapeChar (c : Char) : String :=
  if c = '"' then "\\\""
  else if c = '\\' then "\\\\"
  else if c = '\n' then "\\n"
  else if c = '\t' then "\\t"
  else if c = '\r' then "\\r"
  else String.singleton c

/-- Escape a string for inclusion in a JSON string literal. -/
def escapeStr (s : String) : String :=
  s.toList.foldr (fun c acc => escapeChar c ++ acc) ""

mutual

/-- Model of `JSON.stringify` on `Json` values (integer numbers only). -/
def Json.stringify : Json → String
  | .null => "null"
  | .bool true => "true"
  | .bool false => "false"
  | .num n => toString n
  | .str s => "\"" ++ escapeStr s ++ "\""
  | .arr xs => "[" ++ stringifyElems xs ++ "]"
  | .obj kvs => "\x7b" ++ stringifyMembers kvs ++ "\x7d"

/-- Serialize array elements, comma separated. -/
def stringifyElems : List Json → String
  | [] => ""
  | [x] => Json.stringify x
  | x :: y :: rest => Json.stringify x ++ "," ++ stringifyElems (y :: rest)

/-- Serialize object members, comma separated. -/
def stringifyMembers : List (String × Json) → String
  | [] => ""
  | [(k, v)] => "\"" ++ escapeStr k ++ "\":" ++ Json.stringify v
  | (k, v) :: m :: rest =>
      "\"" ++ escapeStr k ++ "\":" ++ Json.stringify v ++ "," ++ stringifyMembers (m :: rest)

end

/-- Whitespace as recognized by the JSON grammar. -/
def isJsonWs (c : Char) : Bool :=
  c = ' ' || c = '\t' || c = '\n' || c = '\r'

/-- Drop leading JSON whitespace. -/
def skipWs : List Char → List Char
  | [] => []
  | c :: cs => if isJsonWs c then skipWs cs else c :: cs

/-- Match an expected literal suffix, returning the remaining input. -/
def takeLit : List Char → List Char → Option (List Char)
  | [], cs => some cs
  | _ :: _, [] => none
  | l :: ls, c :: cs => if c = l then takeLit ls cs else none

/-- Parse one or more decimal digits into a natural number. -/
def parseDigits : List Char → Option (Nat × List Char)
  | [] => none
  | c :: cs =>
    if c.isDigit then
      let rec go (acc : Nat) : List Char → Nat × List Char
        | [] => (acc, [])
        | d :: ds => if d.isDigit then go (acc * 10 + (d.toNat - '0'.toNat)) ds else (acc, d :: ds)
      some (go (c.toNat - '0'.toNat) cs)
    else none

/-- Parse a JSON integer literal (optional minus, no leading zeros, and --
a restriction of this model -- no fraction or exponent part). -/
def parseIntLit (cs : List Char) : Option (Int × List Char) :=
  let core : List Char → Option (Nat × List Char) := fun cs =>
    match cs with
    | '0' :: rest =>
        match rest with
        | d :: _ => if d.isDigit then none else some (0, rest)
        | [] => some (0, [])
    | _ => parseDigits cs
  match cs with
  | '-' :: rest =>
      match core rest with
      | some (n, rest') => some (-(n : Int), rest')
      | none => none
  | _ =>
      match core cs with
      | some (n, rest') => some ((n : Int), rest')
      | none => none

/-- Parse the body of a JSON string literal after the opening quote,
handling the simple escapes (this model rejects unicode escapes). -/
def parseStrBody : List Char → Option (String × List Char)
  | [] => none
  | c :: cs =>
    if c = '"' then some ("", cs)
    else if c = '\\' then
      match cs with
      | [] => none
      | e :: cs' =>
        let esc : Option Char :=
          if e = '"' then some '"'
          else if e = '\\' then some '\\'
          else if e = '/' then some '/'
          else if e = 'n' then some '\n'
          else if e = 't' then some '\t'
          else if e = 'r' then some '\r'
          else none
        match esc with
        | some ch =>
          match parseStrBody cs' with
          | some (s, rest) => some (String.singleton ch ++ s, rest)
          | none => none
        | none => none
    else if c.toNat < 32 then none
    else
      match parseStrBody cs with
      | some (s, rest) => some (String.singleton c ++ s, rest)
      | none => none

mutual

/-- Fuel-driven recursive-descent parser for one JSON value. -/
def parseValue : Nat → List Char → Option (Json × List Char)
  | 0, _ => none
  | fuel + 1, cs =>
    match skipWs cs with
    | [] => none
    | c :: rest =>
      if c = 'n' then
        match takeLit ['u', 'l', 'l'] rest with
        | some rest' => some (Json.null, rest')
        | none => none
      else if c = 't' then
        match takeLit ['r', 'u', 'e'] rest with
        | some rest' => some (Json.bool true, rest')
        | none => none
      else if c = 'f' then
        match takeLit ['a', 'l', 's', 'e'] rest with
        | some rest' => some (Json.bool false, rest')
        | none => none
      else if c = '"' then
        match parseStrBody rest with
        | some (s, rest') => some (Json.str s, rest')
        | none => none
      else if c = '[' then
        match skipWs rest with
        | ']' :: rest' => some (Json.arr [], rest')
        | _ => match parseElems fuel rest with
               | some (xs, rest') => some (Json.arr xs, rest')
               | none => none
      else if c = '\x7b' then
        match skipWs rest with
        | '\x7d' :: rest' => some (Json.obj [], rest')
        | _ => match parseMembers fuel rest with
               | some (kvs, rest') => some (Json.obj kvs, rest')
               | none => none
      else if c = '-' || c.isDigit then
        match parseIntLit (c :: rest) with
        | some (n, rest') => some (Json.num n, rest')
        | none => none
      else none

/-- Parse the (non-empty) element list of a JSON array, up to and including
the closing bracket. -/
def parseElems : Nat → List Char → Option (List Json × List Char)
  | 0, _ => none
  | fuel + 1, cs =>
    match parseValue fuel cs with
    | none => none
    | some (v, rest) =>
      match skipWs rest with
      | ',' :: rest' =>
        match parseElems fuel rest' with
        | some (vs, rest'') => some (v :: vs, rest'')
        | none => none
      | ']' :: rest' => some ([v], rest')
      | _ => none

/-- Parse the (non-empty) member list of a JSON object, up to and including
the closing brace. -/
def parseMembers : Nat → List Char → Option (List (String × Json) × List Char)
  | 0, _ => none
  | fuel + 1, cs =>
    match skipWs cs with
    | '"' :: rest =>
      match parseStrBody rest with
      | none => none
      | some (k, rest') =>
        match skipWs rest' with
        | ':' :: rest'' =>
          match parseValue fuel rest'' with
          | none => none
          | some (v, rest3) =>
            match skipWs rest3 with
            | ',' :: rest4 =>
              match parseMembers fuel rest4 with
              | some (kvs, rest5) => some ((k, v) :: kvs, rest5)
              | none => none
            | '\x7d' :: rest4 => some ([(k, v)], rest4)
            | _ => none
        | _ => none
    | _ => none

end

/-- Model of `JSON.parse` on raw text: parses a complete JSON document,
returning `none` where `JSON.parse` would throw. -/
def jsonParse (s : String) : Option Json :=
  match parseValue (2 * s.length + 4) s.toList with
  | some (v, rest) => if (skipWs rest).isEmpty then some v else none
  | none => none

/-- A path segment of a zod validation issue (property name or array index). -/
inductive PathElem where
  | key (s : String)
  | idx (n : Nat)
deriving DecidableEq

/-- A zod validation issue: a message plus the path of the offending location. -/
structure ZodIssue where
  message : String
  path : List PathElem
deriving DecidableEq

/-- Render an issue path as the JSON array it serializes to. -/
def pathToJson (p : List PathElem) : Json :=
  Json.arr (p.map fun e => match e with | .key s => Json.str s | .idx n => Json.num n)

/-- Model of a `NextResponse`: either `NextResponse.json(body, opts)` or the
plain-text `new NextResponse(body, opts)`. -/
inductive NextResponse where
  | json (body : Json) (status : Int)
  | text (body : String) (status : Int)

/-- The HTTP status of a response. -/
def NextResponse.status : NextResponse → Int
  | .json _ st => st
  | .text _ st => st

/-- A JavaScript runtime value as seen by the validation pipeline: a JSON
value, a `NextResponse` object that leaked into the data path, or
`undefined`. -/
inductive JsValue where
  | json (j : Json)
  | response (r : NextResponse)
  | undef

/-- Result of `schema.safeParse(data)` for a `z.AnyZodObject`: success carries
the validated/coerced object data, failure carries `error.errors`. -/
inductive SafeParseReturn where
  | success (data : List (String × Json))
  | failure (errors : List ZodIssue)

/-- A zod object schema, modelled as its non-throwing validation capability. -/
abbrev ObjectSchema := JsValue → SafeParseReturn

/-- A JavaScript string that may be fed to `JSON.parse`: either raw text or
the output of `JSON.stringify` on a JSON value.  The second constructor
records provenance so that the JSON library's round-trip contract
`JSON.parse (JSON.stringify v) = v` is available without re-verifying the
library, which the repository treats as an external dependency. -/
inductive JsString where
  | raw (s : String)
  | serialized (j : Json)

/-- Model of `JSON.parse` on a JavaScript string. -/
def jsonParseJsString : JsString → Option Json
  | .raw s => jsonParse s
  | .serialized j => some j

/-- The character content of a JavaScript string. -/
def jsStringText : JsString → String
  | .raw s => s
  | .serialized j => j.stringify

/-- The argument accepted by the `ApiHandlerError` constructor: a plain string
or a JSON-serializable record. -/
inductive ErrorMessage where
  | str (s : String)
  | record (fields : List (String × Json))

/-- The `ApiHandlerError` class: its `message` is the string stored by
`super(typeof message === 'string' ? message : JSON.stringify(message))`,
and `statusCode` is the declared HTTP status. -/
structure ApiHandlerError where
  message : JsString
  statusCode : Int

/-- The `ApiHandlerError` constructor (`new ApiHandlerError(message, statusCode)`). -/
def ApiHandlerError.make (message : ErrorMessage) (statusCode : Int) : ApiHandlerError :=
  ⟨match message with
    | .str s => JsString.raw s
    | .record r => JsString.serialized (Json.obj r),
   statusCode⟩

/-- A value thrown inside the pre-handler: an `ApiHandlerError`, another
`Error` instance (with its message), or any other JavaScript value. -/
inductive Thrown where
  | apiError (e : ApiHandlerError)
  | jsError (message : String)
  | other (value : JsValue)

/-- The request-scoped inputs the adapter reads: the JSON-parse result of the
request payload (`none` when `req.json()` throws), the router's path
parameters (`nfe.params`), the URL's query parameters, and the current
request's headers. -/
structure RequestModel where
  bodyJson : Option Json
  params : JsValue
  queryParams : List (String × String)
  headersList : List (String × String)

/-- The handler context built per request.  `req` stands for the cloned
request handle (and the event handle `nfe`); the four per-field slots start
as empty objects and `errors` collects validation issues. -/
structure HandlerContext where
  req : RequestModel
  body : Json
  query : Json
  segment : Json
  headers : Json
  errors : List ZodIssue

/-- The `ValidationKeys` union type of the source. -/
inductive ValidationKeys where
  | body
  | segment
  | query
  | headers
deriving DecidableEq

/-- The JavaScript key name of a validation field. -/
def keyName : ValidationKeys → String
  | .body => "body"
  | .segment => "segment"
  | .query => "query"
  | .headers => "headers"

/-- The `setup.schema` object: its entries in enumeration (insertion) order.
A value of `none` models a key written with an `undefined` schema.  JavaScript
objects cannot repeat keys, hence the `keysNodup` invariant. -/
structure SchemaCfg where
  entries : List (ValidationKeys × Option ObjectSchema)
  keysNodup : (entries.map Prod.fst).Nodup

/-- The `setup.config` record. -/
structure Config where
  return400ValidationError : Bool

/-- The setup descriptor passed to `apiHandler`. -/
structure Setup where
  schema : Option SchemaCfg
  preHandler : Option (HandlerContext → Except Thrown Unit)
  config : Option Config

/-- The merged configuration `{...defaultConfig, ...(setup.config || \x7b\x7d)}`:
`return400ValidationError` defaults to `true`. -/
def effectiveReturn400 (setup : Setup) : Bool :=
  match setup.config with
  | some c => c.return400ValidationError
  | none => true

/-- Assignment `obj[key] = val` on a JavaScript object modelled as an ordered
association list: an existing key keeps its position and is overwritten, a
new key is appended. -/
def insertEntry (obj : List (String × Json)) (key : String) (val : Json) :
    List (String × Json) :=
  if obj.any (fun p => decide (p.1 = key)) then
    obj.map (fun p => if p.1 = key then (p.1, val) else p)
  else obj ++ [(key, val)]

/-- The source's `objectFromEntries` helper: folds entries into a plain object. -/
def objectFromEntries (entries : List (String × Json)) : List (String × Json) :=
  entries.foldl (fun acc p => insertEntry acc p.1 p.2) []

/-- The structured 400 body returned for an unparseable JSON request body. -/
def invalidJsonBodyResponse : NextResponse :=
  NextResponse.json
    (Json.obj [("type", Json.str "body"), ("status", Json.str "error"),
      ("message", Json.str "Invalid JSON body provided"), ("path", Json.arr [])])
    400

/-- The source's `getData(type)` helper.  It returns either extracted data or
(for an unparseable body under `return400ValidationError`) a ready-made 400
`NextResponse`; the second component records whether the invalid-JSON
diagnostic was printed. -/
def getData (c400 : Bool) (req : RequestModel) :
    ValidationKeys → (JsValue ⊕ NextResponse) × Bool
  | .body =>
    match req.bodyJson with
    | some j => (Sum.inl (JsValue.json j), false)
    | none =>
      if c400 then (Sum.inr invalidJsonBodyResponse, false)
      else (Sum.inl (JsValue.json emptyObj), true)
  | .segment => (Sum.inl req.params, false)
  | .query =>
      (Sum.inl (JsValue.json (Json.obj
        (objectFromEntries (req.queryParams.map (fun p => (p.1, Json.str p.2)))))), false)
  | .headers =>
      (Sum.inl (JsValue.json (Json.obj
        (objectFromEntries (req.headersList.map (fun p => (p.1, Json.str p.2)))))), false)

/-- The source passes `getData`'s return value straight to `safeParse` without
checking whether it is a `NextResponse`, so an early-return response from
`getData` flows into validation as ordinary data.  This coercion models that
untyped hand-off. -/
def coerceData : JsValue ⊕ NextResponse → JsValue
  | Sum.inl v => v
  | Sum.inr r => JsValue.response r

/-- The source's `validationError(type, data)` helper, with `data` the
possibly-absent first issue (`data?.message ?? ''`, `data?.path ?? []`). -/
def validationError (type : String) (data : Option ZodIssue) : NextResponse :=
  NextResponse.json
    (Json.obj [
      ("type", Json.str type),
      ("status", Json.str "validation_error"),
      ("message", Json.str (match data with | some d => d.message | none => "")),
      ("path", match data with | some d => pathToJson d.path | none => Json.arr [])])
    400

/-- Property access `setup.schema[el]`: the schema stored under a key, if any. -/
def schemaGet (cfg : SchemaCfg) (el : ValidationKeys) : Option ObjectSchema :=
  (cfg.entries.find? (fun p => decide (p.1 = el))).bind (fun p => p.2)

/-- The source's `toBeParsedList`: keys of `setup.schema` whose value is
defined, in enumeration order (empty when no schema object was given). -/
def toBeParsedList (schema : Option SchemaCfg) : List ValidationKeys :=
  match schema with
  | some cfg => (cfg.entries.filter (fun p => p.2.isSome)).map (fun p => p.1)
  | none => []

/-- Read one per-field slot of the context. -/
def HandlerContext.get (ctx : HandlerContext) : ValidationKeys → Json
  | .body => ctx.body
  | .segment => ctx.segment
  | .query => ctx.query
  | .headers => ctx.headers

/-- The assignment `context[el] = parsed.data`. -/
def HandlerContext.set (ctx : HandlerContext) (el : ValidationKeys) (v : Json) :
    HandlerContext :=
  match el with
  | .body => ⟨ctx.req, v, ctx.query, ctx.segment, ctx.headers, ctx.errors⟩
  | .segment => ⟨ctx.req, ctx.body, ctx.query, v, ctx.headers, ctx.errors⟩
  | .query => ⟨ctx.req, ctx.body, v, ctx.segment, ctx.headers, ctx.errors⟩
  | .headers => ⟨ctx.req, ctx.body, ctx.query, ctx.segment, v, ctx.errors⟩

/-- The append `context.errors = [...context.errors, ...parsed?.error.errors]`. -/
def HandlerContext.pushErrors (ctx : HandlerContext) (errs : List ZodIssue) :
    HandlerContext :=
  ⟨ctx.req, ctx.body, ctx.query, ctx.segment, ctx.headers, ctx.errors ++ errs⟩

/-- The fresh context created per request: all four slots are empty objects. -/
def initialContext (req : RequestModel) : HandlerContext :=
  ⟨req, emptyObj, emptyObj, emptyObj, emptyObj, []⟩

/-- The raw value the loop hands to `safeParse` for one field, i.e.
`coerceData` applied to `await getData(el)` (a `NextResponse` object in the
unparseable-body short-circuit case). -/
def extractedData (c400 : Bool) (req : RequestModel) (el : ValidationKeys) : JsValue :=
  coerceData (getData c400 req el).1

/-- The loop's `setup.schema[el]?.safeParse(data)`: `none` when
`setup.schema[el]` is undefined. -/
def fieldParseResult (cfg : SchemaCfg) (c400 : Bool) (req : RequestModel)
    (el : ValidationKeys) : Option SafeParseReturn :=
  (schemaGet cfg el).map (fun s => s (extractedData c400 req el))

/-- Outcome of the field-processing loop: an early-return response if one was
produced, the context after processing, the fields extracted (in order), the
fields actually validated (in order), and whether the invalid-JSON diagnostic
was printed. -/
structure LoopOut where
  earlyReturn : Option NextResponse
  ctx : HandlerContext
  extracted : List ValidationKeys
  validated : List ValidationKeys
  logged : Bool

/-- The `for (const el of toBeParsedList)` loop of the source: extract the
field's data, run `safeParse`, store the parsed data on success, otherwise
append the issues and -- when `return400ValidationError` is set -- return the
structured validation error for the first issue. -/
def processFields (cfg : SchemaCfg) (c400 : Bool) (req : RequestModel) :
    List ValidationKeys → HandlerContext → LoopOut
  | [], ctx => ⟨none, ctx, [], [], false⟩
  | el :: rest, ctx =>
    let gd := getData c400 req el
    match fieldParseResult cfg c400 req el with
    | some (.success d) =>
        let out := processFields cfg c400 req rest (ctx.set el (Json.obj d))
        ⟨out.earlyReturn, out.ctx, el :: out.extracted, el :: out.validated,
         gd.2 || out.logged⟩
    | some (.failure errs) =>
        let ctx' := ctx.pushErrors errs
        if c400 then
          ⟨some (validationError (keyName el) errs.head?), ctx', [el], [el], gd.2⟩
        else
          let out := processFields cfg c400 req rest ctx'
          ⟨out.earlyReturn, out.ctx, el :: out.extracted, el :: out.validated,
           gd.2 || out.logged⟩
    | none =>
        -- `setup.schema[el]` undefined: `parsed?.success` is falsy and
        -- `parsed?.error.errors` is undefined, so nothing is pushed.
        if c400 then
          ⟨some (validationError (keyName el) none), ctx, [el], [], gd.2⟩
        else
          let out := processFields cfg c400 req rest ctx
          ⟨out.earlyReturn, out.ctx, el :: out.extracted, out.validated,
           gd.2 || out.logged⟩

/-- The generic body returned when the pre-handler throws a value that is not
an `Error` instance. -/
def preHandlerFailedBody : Json :=
  Json.obj [("status", Json.str "error"), ("statusCode", Json.num 400),
    ("message", Json.str "Pre-handler failed.")]

/-- The catch block around `setup.preHandler(context)`: `Error`-like values
(including plain `Error`s) get their message fed to `JSON.parse` and returned
as a JSON response, falling back to a plain-text response when parsing
throws; the status is `e.statusCode || 400` for an `ApiHandlerError` and 400
otherwise; any non-`Error` value yields the fixed structured 400. -/
def preHandlerCatch : Thrown → NextResponse
  | .apiError e =>
      (match jsonParseJsString e.message with
       | some j => NextResponse.json j (if e.statusCode = 0 then 400 else e.statusCode)
       | none =>
          NextResponse.text (jsStringText e.message)
            (if e.statusCode = 0 then 400 else e.statusCode))
  | .jsError m =>
      (match jsonParse m with
       | some j => NextResponse.json j 400
       | none => NextResponse.text m 400)
  | .other _ => NextResponse.json preHandlerFailedBody 400

/-- What the returned route handler produced: either a response made inside
the adapter (validation short-circuit or pre-handler failure), or the final
handler's own return value passed through by `return handler(context)`. -/
inductive RunResult where
  | adapterResponse (r : NextResponse)
  | handlerReturn (v : Option NextResponse)

/-- Observable execution record of one run, used to state the claims about
ordering and about which callbacks were invoked. -/
structure RunTrace where
  extracted : List ValidationKeys
  validated : List ValidationKeys
  loggedInvalidJson : Bool
  preHandlerCalledWith : Option HandlerContext
  handlerCalledWith : Option HandlerContext

/-- The field-processing phase of one run: the guard
`!!setup.schema && toBeParsedList.length > 0` around the loop, starting from
the fresh context. -/
def loopOutOf (setup : Setup) (req : RequestModel) : LoopOut :=
  match setup.schema with
  | some cfg =>
      if (toBeParsedList setup.schema).isEmpty then
        ⟨none, initialContext req, [], [], false⟩
      else
        processFields cfg (effectiveReturn400 setup) req
          (toBeParsedList setup.schema) (initialContext req)
  | none => ⟨none, initialContext req, [], [], false⟩

/-- The request handler returned by `apiHandler(setup, handler)`, run on one
request.  Exceptions escaping the run (`Except.error`) can only come from the
final handler, whose result the source returns without a surrounding
try/catch. -/
def runApiHandler (setup : Setup)
    (handler : HandlerContext → Except Thrown (Option NextResponse))
    (req : RequestModel) : Except Thrown RunResult × RunTrace :=
  let out : LoopOut := loopOutOf setup req
  match out.earlyReturn with
  | some resp =>
      (Except.ok (RunResult.adapterResponse resp),
       ⟨out.extracted, out.validated, out.logged, none, none⟩)
  | none =>
    match setup.preHandler with
    | some ph =>
      (match ph out.ctx with
       | .ok _ =>
          ((handler out.ctx).map RunResult.handlerReturn,
           ⟨out.extracted, out.validated, out.logged, some out.ctx, some out.ctx⟩)
       | .error t =>
          (Except.ok (RunResult.adapterResponse (preHandlerCatch t)),
           ⟨out.extracted, out.validated, out.logged, some out.ctx, none⟩))
    | none =>
        ((handler out.ctx).map RunResult.handlerReturn,
         ⟨out.extracted, out.validated, out.logged, none, some out.ctx⟩)

/-- Look up a field of a JSON object (association list). -/
def lookupField (kvs : List (String × Json)) (k : String) : Option Json :=
  (kvs.find? (fun p => decide (p.1 = k))).map (fun p => p.2)

/-- Whether a field validates successfully. -/
def isFieldSuccess (cfg : SchemaCfg) (c400 : Bool) (req : RequestModel)
    (el : ValidationKeys) : Bool :=
  match fieldParseResult cfg c400 req el with
  | some (.success _) => true
  | _ => false

/-- The validated data of a successful field, if any. -/
def successData (cfg : SchemaCfg) (c400 : Bool) (req : RequestModel)
    (el : ValidationKeys) : Option (List (String × Json)) :=
  match fieldParseResult cfg c400 req el with
  | some (.success d) => some d
  | _ => none

/-- The issues a field contributes to the context's issue collection. -/
def failIssues (cfg : SchemaCfg) (c400 : Bool) (req : RequestModel)
    (el : ValidationKeys) : List ZodIssue :=
  match fieldParseResult cfg c400 req el with
  | some (.failure errs) => errs
  | _ => []

/-- A concrete schema instance in the style of `z.object(\x7bname: z.string()\x7d)`:
it demands a string-valued `name` property (anything else, including a
`NextResponse` object, has no such own property and is rejected with a
`Required` issue at path `['name']`). -/
def requireName : ObjectSchema := fun v =>
  match v with
  | .json (.obj kvs) =>
    (match lookupField kvs "name" with
     | some (Json.str s) => SafeParseReturn.success [("name", Json.str s)]
     | _ => SafeParseReturn.failure [⟨"Required", [PathElem.key "name"]⟩])
  | _ => SafeParseReturn.failure [⟨"Required", [PathElem.key "name"]⟩]

/-- A concrete schema instance in the style of `z.object(\x7b\x7d)`: it accepts any
object (stripping all keys) and rejects non-objects. -/
def emptySchema : ObjectSchema := fun v =>
  match v with
  | .json (.obj _) => SafeParseReturn.success []
  | .response _ => SafeParseReturn.success []
  | _ => SafeParseReturn.failure [⟨"Expected object", []⟩]

/-- Concatenation of the issues every field in a list contributes. -/
def issuesConcat (cfg : SchemaCfg) (c400 : Bool) (req : RequestModel) :
    List ValidationKeys → List ZodIssue
  | [] => []
  | el :: rest => failIssues cfg c400 req el ++ issuesConcat cfg c400 req rest

/-- A handler that returns no explicit response. -/
def handler0 : HandlerContext → Except Thrown (Option NextResponse) :=
  fun _ => Except.ok none

/-- A handler that throws a non-`Error` value. -/
def handlerThrow : HandlerContext → Except Thrown (Option NextResponse) :=
  fun _ => Except.error (Thrown.other JsValue.undef)

/-- A pre-handler that returns normally. -/
def phOk : HandlerContext → Except Thrown Unit := fun _ => Except.ok ()

/-- A pre-handler that throws a given value. -/
def phThrow (t : Thrown) : HandlerContext → Except Thrown Unit :=
  fun _ => Except.error t

/-- A request with a well-formed (empty-object) JSON body and nothing else. -/
def reqPlain : RequestModel := ⟨some (Json.obj []), JsValue.undef, [], []⟩

/-- A request whose body is not valid JSON (`req.json()` throws),
for example the payload `not-json`. -/
def reqBadBody : RequestModel := ⟨none, JsValue.undef, [], []⟩

/-- Schema object `\x7bquery: requireName\x7d`. -/
def cfgQueryName : SchemaCfg := ⟨[(ValidationKeys.query, some requireName)], by decide⟩

/-- Schema object `\x7bbody: requireName\x7d`. -/
def cfgBodyName : SchemaCfg := ⟨[(ValidationKeys.body, some requireName)], by decide⟩

/-- Schema object `\x7bquery: requireName, body: requireName\x7d` (enumeration
order: query first). -/
def cfgQueryBodyName : SchemaCfg :=
  ⟨[(ValidationKeys.query, some requireName), (ValidationKeys.body, some requireName)],
   by decide⟩

/-- Schema object `\x7bquery: emptySchema, body: emptySchema\x7d` (enumeration
order: query first). -/
def cfgQueryBodyEmpty : SchemaCfg :=
  ⟨[(ValidationKeys.query, some emptySchema), (ValidationKeys.body, some emptySchema)],
   by decide⟩

/-- A request whose body is `\x7b"name": "bob"\x7d`. -/
def reqNamedBody : RequestModel :=
  ⟨some (Json.obj [("name", Json.str "bob")]), JsValue.undef, [], []⟩

/-- Config record disabling the 400 short-circuit. -/
def configOff : Config := ⟨false⟩

/-- Setup: query schema `requireName`, passing pre-handler, default config. -/
def setupC1w : Setup := ⟨some cfgQueryName, some phOk, none⟩

/-- Setup: body schema `requireName`, no pre-handler, default config. -/
def setupC2 : Setup := ⟨some cfgBodyName, none, none⟩

/-- Setup: query and body schemas `requireName`, passing pre-handler,
`return400ValidationError` disabled. -/
def setupC3w : Setup := ⟨some cfgQueryBodyName, some phOk, some configOff⟩

/-- Setup: query and body schemas `emptySchema` (enumeration order: query
first), no pre-handler, default config. -/
def setupC7 : Setup := ⟨some cfgQueryBodyEmpty, none, none⟩

/-- Setup with no schema, no pre-handler, no config. -/
def setupC9 : Setup := ⟨none, none, none⟩

/-- Setup whose pre-handler throws `new ApiHandlerError(\x7breason:'denied'\x7d, 0)`. -/
def setupPreC4 : Setup :=
  ⟨none, some (phThrow (Thrown.apiError
    (ApiHandlerError.make (ErrorMessage.record [("reason", Json.str "denied")]) 0))), none⟩

/-- Setup whose pre-handler throws `new ApiHandlerError(\x7breason:'denied'\x7d, 403)`. -/
def setupPreC4w : Setup :=
  ⟨none, some (phThrow (Thrown.apiError
    (ApiHandlerError.make (ErrorMessage.record [("reason", Json.str "denied")]) 403))), none⟩

/-- Setup whose pre-handler throws `new ApiHandlerError('0', 0)`. -/
def setupPreC5 : Setup :=
  ⟨none, some (phThrow (Thrown.apiError
    (ApiHandlerError.make (ErrorMessage.str "0") 0))), none⟩

/-- Setup whose pre-handler throws `new ApiHandlerError('not-json', 7)`. -/
def setupPreC5w : Setup :=
  ⟨none, some (phThrow (Thrown.apiError
    (ApiHandlerError.make (ErrorMessage.str "not-json") 7))), none⟩

/-- Setup whose pre-handler throws `new Error('oops')`. -/
def setupPreC6 : Setup :=
  ⟨none, some (phThrow (Thrown.jsError "oops")), none⟩

/-- Setup whose pre-handler throws the non-`Error` value `'boom'`. -/
def setupPreC6w : Setup :=
  ⟨none, some (phThrow (Thrown.other (JsValue.json (Json.str "boom")))), none⟩

/-- Setup whose pre-handler throws `new ApiHandlerError('x', 0)`. -/
def setupPreC10w : Setup :=
  ⟨none, some (phThrow (Thrown.apiError
    (ApiHandlerError.make (ErrorMessage.str "x") 0))), none⟩

lemma HandlerContext.get_set_same (ctx : HandlerContext) (el : ValidationKeys) (v : Json) :
    (ctx.set el v).get el = v := by
  cases el <;> rfl

lemma HandlerContext.get_set_ne (ctx : HandlerContext) (el k : ValidationKeys) (v : Json)
    (h : k ≠ el) : (ctx.set el v).get k = ctx.get k := by
  cases el <;> cases k <;> first | rfl | exact absurd rfl h

lemma HandlerContext.get_pushErrors (ctx : HandlerContext) (errs : List ZodIssue)
    (k : ValidationKeys) : (ctx.pushErrors errs).get k = ctx.get k := by
  cases k <;> rfl

lemma HandlerContext.errors_set (ctx : HandlerContext) (el : ValidationKeys) (v : Json) :
    (ctx.set el v).errors = ctx.errors := by
  cases el <;> rfl

lemma HandlerContext.errors_pushErrors (ctx : HandlerContext) (errs : List ZodIssue) :
    (ctx.pushErrors errs).errors = ctx.errors ++ errs := rfl

lemma isFieldSuccess_iff (cfg : SchemaCfg) (c400 : Bool) (req : RequestModel)
    (el : ValidationKeys) :
    isFieldSuccess cfg c400 req el = true ↔
      ∃ d, fieldParseResult cfg c400 req el = some (SafeParseReturn.success d) := by
  unfold isFieldSuccess
  cases h : fieldParseResult cfg c400 req el with
  | none => simp
  | some r => cases r with
    | success d => simp
    | failure errs => simp

lemma failIssues_of_success (cfg : SchemaCfg) (c400 : Bool) (req : RequestModel)
    (el : ValidationKeys) (h : isFieldSuccess cfg c400 req el = true) :
    failIssues cfg c400 req el = [] := by
  rcases (isFieldSuccess_iff cfg c400 req el).1 h with ⟨d, hd⟩
  unfold failIssues
  rw [hd]

lemma successData_of_failure (cfg : SchemaCfg) (c400 : Bool) (req : RequestModel)
    (el : ValidationKeys) (h : isFieldSuccess cfg c400 req el = false) :
    successData cfg c400 req el = none := by
  unfold successData
  cases hp : fieldParseResult cfg c400 req el with
  | none => rfl
  | some r =>
    cases r with
    | success d =>
      exfalso
      have : isFieldSuccess cfg c400 req el = true :=
        (isFieldSuccess_iff cfg c400 req el).2 ⟨d, hp⟩
      simp [this] at h
    | failure errs => rfl

lemma schemaGet_isSome_of_parse (cfg : SchemaCfg) (c400 : Bool) (req : RequestModel)
    (el : ValidationKeys) (r : SafeParseReturn)
    (h : fieldParseResult cfg c400 req el = some r) :
    (schemaGet cfg el).isSome = true := by
  unfold fieldParseResult at h
  cases hg : schemaGet cfg el with
  | none => rw [hg] at h; simp at h
  | some s => rfl

lemma schemaGet_isSome_false_of_parse_none (cfg : SchemaCfg) (c400 : Bool)
    (req : RequestModel) (el : ValidationKeys)
    (h : fieldParseResult cfg c400 req el = none) :
    (schemaGet cfg el).isSome = false := by
  unfold fieldParseResult at h
  cases hg : schemaGet cfg el with
  | none => rfl
  | some s => rw [hg] at h; simp at h

lemma processFields_false_spec (cfg : SchemaCfg) (req : RequestModel) :
    ∀ (l : List ValidationKeys) (ctx : HandlerContext),
      (processFields cfg false req l ctx).earlyReturn = none ∧
      (processFields cfg false req l ctx).extracted = l ∧
      (processFields cfg false req l ctx).validated =
        l.filter (fun el => (schemaGet cfg el).isSome) ∧
      (processFields cfg false req l ctx).ctx.errors =
        ctx.errors ++ issuesConcat cfg false req l := by
  intro l
  induction l with
  | nil => intro ctx; exact ⟨rfl, rfl, rfl, by simp [processFields, issuesConcat]⟩
  | cons el rest ih =>
    intro ctx
    simp only [processFields]
    cases h : fieldParseResult cfg false req el with
    | none =>
      have hs := schemaGet_isSome_false_of_parse_none cfg false req el h
      obtain ⟨h1, h2, h3, h4⟩ := ih ctx
      simp [h1, h2, h3, h4, issuesConcat, failIssues, h, List.filter_cons, hs]
    | some r =>
      have hs := schemaGet_isSome_of_parse cfg false req el r h
      cases r with
      | success d =>
        obtain ⟨h1, h2, h3, h4⟩ := ih (ctx.set el (Json.obj d))
        simp [h1, h2, h3, h4, issuesConcat, failIssues, h, List.filter_cons, hs,
          HandlerContext.errors_set]
      | failure errs =>
        obtain ⟨h1, h2, h3, h4⟩ := ih (ctx.pushErrors errs)
        simp [h1, h2, h3, h4, issuesConcat, failIssues, h, List.filter_cons, hs,
          HandlerContext.errors_pushErrors]

lemma processFields_get_notMem (cfg : SchemaCfg) (c400 : Bool) (req : RequestModel) :
    ∀ (l : List ValidationKeys) (ctx : HandlerContext) (k : ValidationKeys),
      k ∉ l → (processFields cfg c400 req l ctx).ctx.get k = ctx.get k := by
  intro l
  induction l with
  | nil => intro ctx k _; rfl
  | cons el rest ih =>
    intro ctx k hk
    have hkel : k ≠ el := fun he => hk (he ▸ List.mem_cons_self el rest)
    have hkrest : k ∉ rest := fun hr => hk (List.mem_cons_of_mem el hr)
    simp only [processFields]
    cases h : fieldParseResult cfg c400 req el with
    | none =>
      cases c400 with
      | false => simpa using ih ctx k hkrest
      | true => simp
    | some r =>
      cases r with
      | success d =>
        simpa [HandlerContext.get_set_ne ctx el k _ hkel] using
          ih (ctx.set el (Json.obj d)) k hkrest
      | failure errs =>
        cases c400 with
        | false =>
          simpa [HandlerContext.get_pushErrors ctx errs k] using
            ih (ctx.pushErrors errs) k hkrest
        | true => simp [HandlerContext.get_pushErrors ctx errs k]

lemma processFields_get_mem_false (cfg : SchemaCfg) (req : RequestModel) :
    ∀ (l : List ValidationKeys) (ctx : HandlerContext) (k : ValidationKeys),
      l.Nodup → k ∈ l →
      (processFields cfg false req l ctx).ctx.get k =
        (match successData cfg false req k with
         | some d => Json.obj d
         | none => ctx.get k) := by
  intro l
  induction l with
  | nil => intro ctx k _ hk; cases hk
  | cons el rest ih =>
    intro ctx k hnd hk
    rw [List.nodup_cons] at hnd
    simp only [processFields]
    by_cases hkel : k = el
    · subst hkel
      have hkrest : k ∉ rest := hnd.1
      cases h : fieldParseResult cfg false req k with
      | none =>
        have hsd : successData cfg false req k = none := by
          unfold successData; rw [h]
        simpa [hsd] using processFields_get_notMem cfg false req rest ctx k hkrest
      | some r =>
        cases r with
        | success d =>
          have hsd : successData cfg false req k = some d := by
            unfold successData; rw [h]
          simp only [hsd]
          rw [processFields_get_notMem cfg false req rest _ k hkrest,
            HandlerContext.get_set_same]
        | failure errs =>
          have hsd : successData cfg false req k = none := by
            unfold successData; rw [h]
          simp only [hsd, Bool.false_eq_true, if_false]
          rw [processFields_get_notMem cfg false req rest _ k hkrest,
            HandlerContext.get_pushErrors]
    · have hkrest : k ∈ rest := (List.mem_cons.1 hk).resolve_left hkel
      cases h : fieldParseResult cfg false req el with
      | none => simpa using ih ctx k hnd.2 hkrest
      | some r =>
        cases r with
        | success d =>
          have := ih (ctx.set el (Json.obj d)) k hnd.2 hkrest
          rw [HandlerContext.get_set_ne ctx el k _ hkel] at this
          simpa using this
        | failure errs =>
          have := ih (ctx.pushErrors errs) k hnd.2 hkrest
          rw [HandlerContext.get_pushErrors ctx errs k] at this
          simpa using this

lemma processFields_get_isObj (cfg : SchemaCfg) (c400 : Bool) (req : RequestModel) :
    ∀ (l : List ValidationKeys) (ctx : HandlerContext),
      (∀ k, (ctx.get k).isObj = true) →
      ∀ k, ((processFields cfg c400 req l ctx).ctx.get k).isObj = true := by
  intro l
  induction l with
  | nil => intro ctx hctx k; exact hctx k
  | cons el rest ih =>
    intro ctx hctx k
    simp only [processFields]
    cases h : fieldParseResult cfg c400 req el with
    | none =>
      cases c400 with
      | false => simpa using ih ctx hctx k
      | true => simpa using hctx k
    | some r =>
      cases r with
      | success d =>
        have hset : ∀ k', (((ctx.set el (Json.obj d)).get k').isObj) = true := by
          intro k'
          by_cases hke : k' = el
          · subst hke; rw [HandlerContext.get_set_same]; rfl
          · rw [HandlerContext.get_set_ne ctx el k' _ hke]; exact hctx k'
        simpa using ih (ctx.set el (Json.obj d)) hset k
      | failure errs =>
        have hpush : ∀ k', (((ctx.pushErrors errs).get k').isObj) = true := by
          intro k'
          rw [HandlerContext.get_pushErrors]
          exact hctx k'
        cases c400 with
        | false => simpa using ih (ctx.pushErrors errs) hpush k
        | true => simpa using hpush k

lemma processFields_extracted_prefix (cfg : SchemaCfg) (c400 : Bool) (req : RequestModel) :
    ∀ (l : List ValidationKeys) (ctx : HandlerContext),
      ∃ rest, l = (processFields cfg c400 req l ctx).extracted ++ rest := by
  intro l
  induction l with
  | nil => intro ctx; exact ⟨[], rfl⟩
  | cons el rest ih =>
    intro ctx
    simp only [processFields]
    cases h : fieldParseResult cfg c400 req el with
    | none =>
      cases c400 with
      | false =>
        obtain ⟨r, hr⟩ := ih ctx
        exact ⟨r, by simpa using congrArg (el :: ·) hr⟩
      | true => exact ⟨rest, by simp⟩
    | some pr =>
      cases pr with
      | success d =>
        obtain ⟨r, hr⟩ := ih (ctx.set el (Json.obj d))
        exact ⟨r, by simpa using congrArg (el :: ·) hr⟩
      | failure errs =>
        cases c400 with
        | false =>
          obtain ⟨r, hr⟩ := ih (ctx.pushErrors errs)
          exact ⟨r, by simpa using congrArg (el :: ·) hr⟩
        | true => exact ⟨rest, by simp⟩

lemma processFields_firstFail (cfg : SchemaCfg) (req : RequestModel) :
    ∀ (pre : List ValidationKeys) (el : ValidationKeys) (post : List ValidationKeys)
      (ctx : HandlerContext) (errs : List ZodIssue),
      (∀ e ∈ pre, isFieldSuccess cfg true req e = true) →
      fieldParseResult cfg true req el = some (SafeParseReturn.failure errs) →
      (processFields cfg true req (pre ++ el :: post) ctx).earlyReturn =
          some (validationError (keyName el) errs.head?) ∧
      (processFields cfg true req (pre ++ el :: post) ctx).extracted = pre ++ [el] ∧
      (processFields cfg true req (pre ++ el :: post) ctx).validated = pre ++ [el] := by
  intro pre
  induction pre with
  | nil =>
    intro el post ctx errs _ hfail
    simp only [List.nil_append, processFields, hfail]
    exact ⟨rfl, rfl, rfl⟩
  | cons e pre ih =>
    intro el post ctx errs hpre hfail
    have he : isFieldSuccess cfg true req e = true := hpre e (List.mem_cons_self e pre)
    rcases (isFieldSuccess_iff cfg true req e).1 he with ⟨d, hd⟩
    have hpre' : ∀ x ∈ pre, isFieldSuccess cfg true req x = true := fun x hx =>
      hpre x (List.mem_cons_of_mem e hx)
    obtain ⟨h1, h2, h3⟩ := ih el post (ctx.set e (Json.obj d)) errs hpre' hfail
    rw [List.cons_append]
    simp only [processFields, hd]
    exact ⟨h1, by simp [h2], by simp [h3]⟩

lemma find_entries_of_nodup :
    ∀ (entries : List (ValidationKeys × Option ObjectSchema)),
      (entries.map Prod.fst).Nodup →
      ∀ p ∈ entries, entries.find? (fun q => decide (q.1 = p.1)) = some p := by
  intro entries
  induction entries with
  | nil => intro _ p hp; cases hp
  | cons q rest ih =>
    intro hnd p hp
    rw [List.map_cons, List.nodup_cons] at hnd
    rcases List.mem_cons.1 hp with hp | hp
    · subst hp
      exact List.find?_cons_of_pos _ (by simp)
    · have hne : q.1 ≠ p.1 := by
        intro he
        exact hnd.1 (he ▸ List.mem_map_of_mem Prod.fst hp)
      rw [List.find?_cons_of_neg _ (by simpa using hne)]
      exact ih hnd.2 p hp

lemma schemaGet_of_mem_toBeParsedList (cfg : SchemaCfg) (el : ValidationKeys)
    (h : el ∈ toBeParsedList (some cfg)) : ∃ s, schemaGet cfg el = some s := by
  unfold toBeParsedList at h
  rw [List.mem_map] at h
  rcases h with ⟨p, hpmem, hpe⟩
  rw [List.mem_filter] at hpmem
  rcases Option.isSome_iff_exists.1 (by simpa using hpmem.2) with ⟨s, hs⟩
  refine ⟨s, ?_⟩
  unfold schemaGet
  have hfind := find_entries_of_nodup cfg.entries cfg.keysNodup p hpmem.1
  rw [hpe] at hfind
  rw [hfind]
  simp [hs]

lemma toBeParsedList_nodup (cfg : SchemaCfg) : (toBeParsedList (some cfg)).Nodup := by
  have hsub : List.Sublist
      ((cfg.entries.filter (fun p => p.2.isSome)).map Prod.fst)
      (cfg.entries.map Prod.fst) :=
    (List.filter_sublist cfg.entries).map Prod.fst
  have : ((cfg.entries.filter (fun p => p.2.isSome)).map Prod.fst).Nodup :=
    cfg.keysNodup.sublist hsub
  simpa [toBeParsedList] using this

lemma fieldParseResult_isSome_of_mem (cfg : SchemaCfg) (c400 : Bool) (req : RequestModel)
    (el : ValidationKeys) (h : el ∈ toBeParsedList (some cfg)) :
    ∃ r, fieldParseResult cfg c400 req el = some r := by
  rcases schemaGet_of_mem_toBeParsedList cfg el h with ⟨s, hs⟩
  exact ⟨s (extractedData c400 req el), by unfold fieldParseResult; rw [hs]; rfl⟩

lemma failIssues_of_not_success (cfg : SchemaCfg) (c400 : Bool) (req : RequestModel)
    (el : ValidationKeys) (hmem : el ∈ toBeParsedList (some cfg))
    (h : isFieldSuccess cfg c400 req el = false) :
    ∃ errs, fieldParseResult cfg c400 req el = some (SafeParseReturn.failure errs) ∧
      failIssues cfg c400 req el = errs := by
  rcases fieldParseResult_isSome_of_mem cfg c400 req el hmem with ⟨r, hr⟩
  cases r with
  | success d =>
    exfalso
    have : isFieldSuccess cfg c400 req el = true :=
      (isFieldSuccess_iff cfg c400 req el).2 ⟨d, hr⟩
    rw [this] at h
    cases h
  | failure errs =>
    exact ⟨errs, hr, by unfold failIssues; rw [hr]⟩

lemma issuesConcat_count (cfg : SchemaCfg) (req : RequestModel) :
    ∀ (l : List ValidationKeys),
      (∀ el ∈ l, isFieldSuccess cfg false req el = false →
        failIssues cfg false req el ≠ []) →
      (l.filter (fun el => !(isFieldSuccess cfg false req el))).length ≤
        (issuesConcat cfg false req l).length := by
  intro l
  induction l with
  | nil => intro _; simp [issuesConcat]
  | cons el rest ih =>
    intro hne
    have hrest := ih (fun x hx => hne x (List.mem_cons_of_mem el hx))
    rw [issuesConcat, List.length_append, List.filter_cons]
    cases hs : isFieldSuccess cfg false req el with
    | true =>
      simp only [hs, Bool.not_true, if_neg]
      simp only [Bool.false_eq_true, if_false]
      omega
    | false =>
      have hfe : failIssues cfg false req el ≠ [] :=
        hne el (List.mem_cons_self el rest) hs
      have : 1 ≤ (failIssues cfg false req el).length := by
        cases hfi : failIssues cfg false req el with
        | nil => exact absurd hfi hfe
        | cons a b => simp
      simp only [hs, Bool.not_false, if_pos, List.length_cons]
      omega

lemma loopOutOf_schema_none (setup : Setup) (req : RequestModel)
    (h : setup.schema = none) :
    loopOutOf setup req = ⟨none, initialContext req, [], [], false⟩ := by
  unfold loopOutOf
  rw [h]

lemma runApiHandler_early (setup : Setup)
    (handler : HandlerContext → Except Thrown (Option NextResponse))
    (req : RequestModel) (resp : NextResponse)
    (h : (loopOutOf setup req).earlyReturn = some resp) :
    runApiHandler setup handler req =
      (Except.ok (RunResult.adapterResponse resp),
       ⟨(loopOutOf setup req).extracted, (loopOutOf setup req).validated,
        (loopOutOf setup req).logged, none, none⟩) := by
  simp only [runApiHandler, h]

lemma runApiHandler_noPre (setup : Setup)
    (handler : HandlerContext → Except Thrown (Option NextResponse))
    (req : RequestModel)
    (hsc : (loopOutOf setup req).earlyReturn = none)
    (hph : setup.preHandler = none) :
    runApiHandler setup handler req =
      ((handler (loopOutOf setup req).ctx).map RunResult.handlerReturn,
       ⟨(loopOutOf setup req).extracted, (loopOutOf setup req).validated,
        (loopOutOf setup req).logged, none, some (loopOutOf setup req).ctx⟩) := by
  simp only [runApiHandler, hsc, hph]

lemma runApiHandler_preOk (setup : Setup)
    (handler : HandlerContext → Except Thrown (Option NextResponse))
    (req : RequestModel) (ph : HandlerContext → Except Thrown Unit)
    (hsc : (loopOutOf setup req).earlyReturn = none)
    (hph : setup.preHandler = some ph)
    (hok : ph (loopOutOf setup req).ctx = Except.ok ()) :
    runApiHandler setup handler req =
      ((handler (loopOutOf setup req).ctx).map RunResult.handlerReturn,
       ⟨(loopOutOf setup req).extracted, (loopOutOf setup req).validated,
        (loopOutOf setup req).logged, some (loopOutOf setup req).ctx,
        some (loopOutOf setup req).ctx⟩) := by
  simp only [runApiHandler, hsc, hph, hok]

lemma runApiHandler_preThrow (setup : Setup)
    (handler : HandlerContext → Except Thrown (Option NextResponse))
    (req : RequestModel) (ph : HandlerContext → Except Thrown Unit) (t : Thrown)
    (hsc : (loopOutOf setup req).earlyReturn = none)
    (hph : setup.preHandler = some ph)
    (hthrow : ph (loopOutOf setup req).ctx = Except.error t) :
    runApiHandler setup handler req =
      (Except.ok (RunResult.adapterResponse (preHandlerCatch t)),
       ⟨(loopOutOf setup req).extracted, (loopOutOf setup req).validated,
        (loopOutOf setup req).logged, some (loopOutOf setup req).ctx, none⟩) := by
  simp only [runApiHandler, hsc, hph, hthrow]

lemma preHandlerCatch_apiError_status (e : ApiHandlerError) :
    (preHandlerCatch (Thrown.apiError e)).status =
      if e.statusCode = 0 then 400 else e.statusCode := by
  cases h : jsonParseJsString e.message with
  | none => simp [preHandlerCatch, h, NextResponse.status]
  | some j => simp [preHandlerCatch, h, NextResponse.status]

/-- C4 counterexample: the claim asserts the response status equals the
declared status code for every status code given to the constructor, but for
the declared code 0 (`new ApiHandlerError(\x7breason:'denied'\x7d, 0)` thrown in
the pre-handler) the adapter responds with status 400, not 0 (the source
computes `e.statusCode || 400`). -/
theorem claim_C4_counterexample :
    (runApiHandler setupPreC4 handler0 reqPlain).1 =
      Except.ok (RunResult.adapterResponse
        (NextResponse.json (Json.obj [("reason", Json.str "denied")]) 400)) ∧
    (400 : Int) ≠ 0 :=
  ⟨rfl, by decide⟩

/-- C4 (amended): an `ApiHandlerError` raised in the pre-handler with a
JSON-serializable object message yields a response whose JSON body
deep-equals that object, and whose HTTP status equals the declared status
code whenever that code is nonzero (a zero code is replaced by 400). -/
theorem claim_C4 (setup : Setup)
    (handler : HandlerContext → Except Thrown (Option NextResponse))
    (req : RequestModel) (ph : HandlerContext → Except Thrown Unit)
    (r : List (String × Json)) (sc : Int)
    (_hnodup : (r.map Prod.fst).Nodup)
    (hsc : (loopOutOf setup req).earlyReturn = none)
    (hph : setup.preHandler = some ph)
    (hthrow : ph (loopOutOf setup req).ctx =
      Except.error (Thrown.apiError (ApiHandlerError.make (ErrorMessage.record r) sc)))
    (hsc0 : sc ≠ 0) :
    (runApiHandler setup handler req).1 =
      Except.ok (RunResult.adapterResponse (NextResponse.json (Json.obj r) sc)) := by
  rw [runApiHandler_preThrow setup handler req ph _ hsc hph hthrow]
  simp only [preHandlerCatch, ApiHandlerError.make, jsonParseJsString]
  rw [if_neg hsc0]

/-- C4 witness: `new ApiHandlerError(\x7breason:'denied'\x7d, 403)` thrown in the
pre-handler produces the JSON body `\x7breason:'denied'\x7d` with status 403. -/
theorem claim_C4_witness :
    ([("reason", Json.str "denied")].map Prod.fst).Nodup ∧
    (loopOutOf setupPreC4w reqPlain).earlyReturn = none ∧
    setupPreC4w.preHandler = some (phThrow (Thrown.apiError
      (ApiHandlerError.make (ErrorMessage.record [("reason", Json.str "denied")]) 403))) ∧
    (403 : Int) ≠ 0 ∧
    (runApiHandler setupPreC4w handler0 reqPlain).1 =
      Except.ok (RunResult.adapterResponse
        (NextResponse.json (Json.obj [("reason", Json.str "denied")]) 403)) :=
  ⟨by decide, rfl, rfl, by decide,
   claim_C4 setupPreC4w handler0 reqPlain _ [("reason", Json.str "denied")] 403
     (by decide) rfl rfl rfl (by decide)⟩

/-- C5 counterexample: the claim asserts every plain-string message yields a
plain-text response with that exact string and the declared status; but for
`new ApiHandlerError('0', 0)` thrown in the pre-handler, `JSON.parse('0')`
succeeds, so the adapter returns a JSON response with body `0` and status 400
(not the plain-text response `'0'` with status 0 that the claim demands). -/
theorem claim_C5_counterexample :
    (runApiHandler setupPreC5 handler0 reqPlain).1 =
      Except.ok (RunResult.adapterResponse (NextResponse.json (Json.num 0) 400)) ∧
    NextResponse.json (Json.num 0) 400 ≠ NextResponse.text "0" 0 :=
  ⟨rfl, fun h => nomatch h⟩

/-- C5 (amended): an `ApiHandlerError` raised in the pre-handler whose message
is a plain string that `JSON.parse` rejects yields a plain-text response whose
body is exactly that string, with status the declared code when nonzero and
400 when the declared code is 0. -/
theorem claim_C5 (setup : Setup)
    (handler : HandlerContext → Except Thrown (Option NextResponse))
    (req : RequestModel) (ph : HandlerContext → Except Thrown Unit)
    (s : String) (sc : Int)
    (hsc : (loopOutOf setup req).earlyReturn = none)
    (hph : setup.preHandler = some ph)
    (hthrow : ph (loopOutOf setup req).ctx =
      Except.error (Thrown.apiError (ApiHandlerError.make (ErrorMessage.str s) sc)))
    (hparse : jsonParse s = none) :
    (runApiHandler setup handler req).1 =
      Except.ok (RunResult.adapterResponse
        (NextResponse.text s (if sc = 0 then 400 else sc))) := by
  rw [runApiHandler_preThrow setup handler req ph _ hsc hph hthrow]
  simp only [preHandlerCatch, ApiHandlerError.make, jsonParseJsString, hparse, jsStringText]

/-- C5 witness: `new ApiHandlerError('not-json', 7)` thrown in the pre-handler
produces the plain-text response `not-json` with status 7. -/
theorem claim_C5_witness :
    (loopOutOf setupPreC5w reqPlain).earlyReturn = none ∧
    setupPreC5w.preHandler = some (phThrow (Thrown.apiError
      (ApiHandlerError.make (ErrorMessage.str "not-json") 7))) ∧
    jsonParse "not-json" = none ∧
    (runApiHandler setupPreC5w handler0 reqPlain).1 =
      Except.ok (RunResult.adapterResponse (NextResponse.text "not-json" 7)) :=
  ⟨rfl, rfl, rfl, by
    have h := claim_C5 setupPreC5w handler0 reqPlain _ "not-json" 7 rfl rfl rfl rfl
    simpa using h⟩

/-- C6 counterexample: the claim asserts every raised value that is not an
`ApiHandlerError` yields the fixed structured 400 with no original detail
exposed; but a plain `new Error('oops')` thrown in the pre-handler matches the
source's `e instanceof Error` test, so the adapter replies with the plain-text
body `oops` (exposing the message), not the generic structured response. -/
theorem claim_C6_counterexample :
    (runApiHandler setupPreC6 handler0 reqPlain).1 =
      Except.ok (RunResult.adapterResponse (NextResponse.text "oops" 400)) ∧
    NextResponse.text "oops" 400 ≠
      NextResponse.json (Json.obj [("status", Json.str "error"),
        ("statusCode", Json.num 400), ("message", Json.str "Pre-handler failed.")]) 400 :=
  ⟨rfl, fun h => nomatch h⟩

/-- C6 (amended): a value raised in the pre-handler that is neither an
`ApiHandlerError` nor any other `Error` instance yields the structured
response `\x7bstatus:'error', statusCode:400, message:'Pre-handler failed.'\x7d`
with HTTP status 400, independently of the raised value (so no detail of it
is exposed); plain `Error` instances are instead handled like
`ApiHandlerError`s with status fixed at 400. -/
theorem claim_C6 (setup : Setup)
    (handler : HandlerContext → Except Thrown (Option NextResponse))
    (req : RequestModel) (ph : HandlerContext → Except Thrown Unit) (v : JsValue)
    (hsc : (loopOutOf setup req).earlyReturn = none)
    (hph : setup.preHandler = some ph)
    (hthrow : ph (loopOutOf setup req).ctx = Except.error (Thrown.other v)) :
    (runApiHandler setup handler req).1 =
      Except.ok (RunResult.adapterResponse
        (NextResponse.json (Json.obj [("status", Json.str "error"),
          ("statusCode", Json.num 400), ("message", Json.str "Pre-handler failed.")]) 400)) := by
  rw [runApiHandler_preThrow setup handler req ph _ hsc hph hthrow]
  rfl

/-- C6 witness: the non-`Error` value `'boom'` thrown in the pre-handler
produces the fixed structured 400 response. -/
theorem claim_C6_witness :
    (loopOutOf setupPreC6w reqPlain).earlyReturn = none ∧
    setupPreC6w.preHandler =
      some (phThrow (Thrown.other (JsValue.json (Json.str "boom")))) ∧
    (runApiHandler setupPreC6w handler0 reqPlain).1 =
      Except.ok (RunResult.adapterResponse
        (NextResponse.json (Json.obj [("status", Json.str "error"),
          ("statusCode", Json.num 400), ("message", Json.str "Pre-handler failed.")]) 400)) :=
  ⟨rfl, rfl,
   claim_C6 setupPreC6w handler0 reqPlain _ (JsValue.json (Json.str "boom")) rfl rfl rfl⟩

/-- C10: for an `ApiHandlerError` raised in the pre-handler the response
status is `statusCode || 400`: a zero (falsy) declared code yields 400 and
any nonzero declared code is used as-is. -/
theorem claim_C10 (setup : Setup)
    (handler : HandlerContext → Except Thrown (Option NextResponse))
    (req : RequestModel) (ph : HandlerContext → Except Thrown Unit)
    (e : ApiHandlerError)
    (hsc : (loopOutOf setup req).earlyReturn = none)
    (hph : setup.preHandler = some ph)
    (hthrow : ph (loopOutOf setup req).ctx = Except.error (Thrown.apiError e)) :
    ∃ resp, (runApiHandler setup handler req).1 =
        Except.ok (RunResult.adapterResponse resp) ∧
      (e.statusCode = 0 → resp.status = 400) ∧
      (e.statusCode ≠ 0 → resp.status = e.statusCode) := by
  rw [runApiHandler_preThrow setup handler req ph _ hsc hph hthrow]
  refine ⟨preHandlerCatch (Thrown.apiError e), rfl, ?_, ?_⟩
  · intro h0
    rw [preHandlerCatch_apiError_status, if_pos h0]
  · intro h0
    rw [preHandlerCatch_apiError_status, if_neg h0]

/-- C10 witness: `new ApiHandlerError('x', 0)` thrown in the pre-handler
yields a response whose status is 400, not 0. -/
theorem claim_C10_witness :
    (loopOutOf setupPreC10w reqPlain).earlyReturn = none ∧
    setupPreC10w.preHandler = some (phThrow (Thrown.apiError
      (ApiHandlerError.make (ErrorMessage.str "x") 0))) ∧
    (∃ resp, (runApiHandler setupPreC10w handler0 reqPlain).1 =
        Except.ok (RunResult.adapterResponse resp) ∧
      ((ApiHandlerError.make (ErrorMessage.str "x") 0).statusCode = 0 →
        resp.status = 400) ∧
      ((ApiHandlerError.make (ErrorMessage.str "x") 0).statusCode ≠ 0 →
        resp.status = (ApiHandlerError.make (ErrorMessage.str "x") 0).statusCode)) :=
  ⟨rfl, rfl, claim_C10 setupPreC10w handler0 reqPlain _ _ rfl rfl rfl⟩

/-- C9: whenever the final handler is invoked, its result -- including a
thrown exception -- is the run's outcome, unchanged (the adapter installs no
try/catch around it); whenever the handler is not invoked, the run ends in an
HTTP response produced inside the adapter, so extraction, validation and
pre-handler failures never escape to the host framework. -/
theorem claim_C9 (setup : Setup)
    (handler : HandlerContext → Except Thrown (Option NextResponse))
    (req : RequestModel) :
    (∀ ctx, (runApiHandler setup handler req).2.handlerCalledWith = some ctx →
      (runApiHandler setup handler req).1 = (handler ctx).map RunResult.handlerReturn) ∧
    ((runApiHandler setup handler req).2.handlerCalledWith = none →
      ∃ resp, (runApiHandler setup handler req).1 =
        Except.ok (RunResult.adapterResponse resp)) := by
  cases hsc : (loopOutOf setup req).earlyReturn with
  | some resp =>
    rw [runApiHandler_early setup handler req resp hsc]
    refine ⟨fun ctx hctx => ?_, fun _ => ⟨resp, rfl⟩⟩
    exact absurd hctx (by simp)
  | none =>
    cases hph : setup.preHandler with
    | none =>
      rw [runApiHandler_noPre setup handler req hsc hph]
      refine ⟨fun ctx hctx => ?_, fun h => absurd h (by simp)⟩
      have h : (loopOutOf setup req).ctx = ctx := by
        simpa using hctx
      rw [h]
    | some ph =>
      cases hres : ph (loopOutOf setup req).ctx with
      | ok u =>
        cases u
        rw [runApiHandler_preOk setup handler req ph hsc hph hres]
        refine ⟨fun ctx hctx => ?_, fun h => absurd h (by simp)⟩
        have h : (loopOutOf setup req).ctx = ctx := by
          simpa using hctx
        rw [h]
      | error t =>
        rw [runApiHandler_preThrow setup handler req ph t hsc hph hres]
        refine ⟨fun ctx hctx => ?_, fun _ => ⟨preHandlerCatch t, rfl⟩⟩
        exact absurd hctx (by simp)

/-- C9 witness: with no schema and no pre-handler, a handler that throws a
non-`Error` value has that exception propagated unchanged as the run's
outcome. -/
theorem claim_C9_witness :
    (runApiHandler setupC9 handlerThrow reqPlain).2.handlerCalledWith =
      some (initialContext reqPlain) ∧
    (runApiHandler setupC9 handlerThrow reqPlain).1 =
      Except.error (Thrown.other JsValue.undef) :=
  ⟨rfl,
   ((claim_C9 setupC9 handlerThrow reqPlain).1 (initialContext reqPlain) rfl).trans rfl⟩

lemma loopOutOf_schema_some_ne (setup : Setup) (req : RequestModel) (cfg : SchemaCfg)
    (hcfg : setup.schema = some cfg)
    (hne : toBeParsedList (some cfg) ≠ []) :
    loopOutOf setup req =
      processFields cfg (effectiveReturn400 setup) req
        (toBeParsedList (some cfg)) (initialContext req) := by
  have hemp : (toBeParsedList (some cfg)).isEmpty = false := by
    cases h : toBeParsedList (some cfg) with
    | nil => exact absurd h hne
    | cons a l => rfl
  simp only [loopOutOf, hcfg, hemp]
  simp

/-- C1: with `return400ValidationError` true (explicitly or by default), if a
configured field is the first whose schema validation fails, the run returns
the JSON body `\x7btype: <field>, status:'validation_error', message: <first
issue's message or ''>, path: <first issue's path or []>\x7d` with HTTP status
400, extracts and validates no field after the failing one, and invokes
neither the pre-handler nor the final handler. -/
theorem claim_C1 (setup : Setup)
    (handler : HandlerContext → Except Thrown (Option NextResponse))
    (req : RequestModel) (cfg : SchemaCfg) (pre post : List ValidationKeys)
    (el : ValidationKeys) (errs : List ZodIssue)
    (hcfg : setup.schema = some cfg)
    (h400 : effectiveReturn400 setup = true)
    (hsplit : toBeParsedList setup.schema = pre ++ el :: post)
    (hpre : ∀ e ∈ pre, isFieldSuccess cfg true req e = true)
    (hfail : fieldParseResult cfg true req el = some (SafeParseReturn.failure errs)) :
    (runApiHandler setup handler req).1 =
      Except.ok (RunResult.adapterResponse (NextResponse.json
        (Json.obj [("type", Json.str (keyName el)),
          ("status", Json.str "validation_error"),
          ("message", Json.str (match errs.head? with | some i => i.message | none => "")),
          ("path", match errs.head? with | some i => pathToJson i.path | none => Json.arr [])])
        400)) ∧
    (runApiHandler setup handler req).2.extracted = pre ++ [el] ∧
    (runApiHandler setup handler req).2.validated = pre ++ [el] ∧
    (runApiHandler setup handler req).2.preHandlerCalledWith = none ∧
    (runApiHandler setup handler req).2.handlerCalledWith = none := by
  have hlist : toBeParsedList (some cfg) = pre ++ el :: post := by
    rw [← hcfg]; exact hsplit
  have hlo : loopOutOf setup req =
      processFields cfg true req (pre ++ el :: post) (initialContext req) := by
    rw [loopOutOf_schema_some_ne setup req cfg hcfg (by rw [hlist]; simp)]
    rw [hlist, h400]
  obtain ⟨hEarly, hExtr, hVal⟩ :=
    processFields_firstFail cfg req pre el post (initialContext req) errs hpre hfail
  have hrun := runApiHandler_early setup handler req
    (validationError (keyName el) errs.head?) (by rw [hlo]; exact hEarly)
  rw [hrun]
  refine ⟨rfl, ?_, ?_, rfl, rfl⟩
  · show (loopOutOf setup req).extracted = pre ++ [el]
    rw [hlo]; exact hExtr
  · show (loopOutOf setup req).validated = pre ++ [el]
    rw [hlo]; exact hVal

/-- C1 witness: with the schema `\x7bquery: requireName\x7d` and a request with no
query parameters, the query field fails validation and the run returns the
structured 400 without invoking the pre-handler or the handler. -/
theorem claim_C1_witness :
    effectiveReturn400 setupC1w = true ∧
    toBeParsedList setupC1w.schema = [] ++ ValidationKeys.query :: [] ∧
    (∀ e ∈ ([] : List ValidationKeys), isFieldSuccess cfgQueryName true reqPlain e = true) ∧
    fieldParseResult cfgQueryName true reqPlain ValidationKeys.query =
      some (SafeParseReturn.failure [⟨"Required", [PathElem.key "name"]⟩]) ∧
    ((runApiHandler setupC1w handler0 reqPlain).1 =
      Except.ok (RunResult.adapterResponse (NextResponse.json
        (Json.obj [("type", Json.str (keyName ValidationKeys.query)),
          ("status", Json.str "validation_error"),
          ("message", Json.str
            (match ([⟨"Required", [PathElem.key "name"]⟩] : List ZodIssue).head? with
             | some i => i.message | none => "")),
          ("path",
            match ([⟨"Required", [PathElem.key "name"]⟩] : List ZodIssue).head? with
            | some i => pathToJson i.path | none => Json.arr [])])
        400)) ∧
    (runApiHandler setupC1w handler0 reqPlain).2.extracted = [] ++ [ValidationKeys.query] ∧
    (runApiHandler setupC1w handler0 reqPlain).2.validated = [] ++ [ValidationKeys.query] ∧
    (runApiHandler setupC1w handler0 reqPlain).2.preHandlerCalledWith = none ∧
    (runApiHandler setupC1w handler0 reqPlain).2.handlerCalledWith = none) :=
  ⟨rfl, rfl, fun e he => absurd he (List.not_mem_nil e), rfl,
   claim_C1 setupC1w handler0 reqPlain cfgQueryName [] [] ValidationKeys.query
     [⟨"Required", [PathElem.key "name"]⟩] rfl rfl rfl
     (fun e he => absurd he (List.not_mem_nil e)) rfl⟩

lemma loopOutOf_schema_some (setup : Setup) (req : RequestModel) (cfg : SchemaCfg)
    (hcfg : setup.schema = some cfg) :
    loopOutOf setup req =
      processFields cfg (effectiveReturn400 setup) req
        (toBeParsedList (some cfg)) (initialContext req) := by
  cases h : toBeParsedList (some cfg) with
  | nil =>
    simp only [loopOutOf, hcfg, h]
    simp [processFields]
  | cons a l =>
    rw [← h]
    exact loopOutOf_schema_some_ne setup req cfg hcfg (by rw [h]; simp)

lemma initialContext_get (req : RequestModel) (el : ValidationKeys) :
    (initialContext req).get el = emptyObj := by
  cases el <;> rfl

lemma requireName_failure_nonempty :
    ∀ v errs, requireName v = SafeParseReturn.failure errs → errs ≠ [] := by
  intro v errs h
  unfold requireName at h
  split at h <;> try split at h
  all_goals
    try exact SafeParseReturn.noConfusion h
  all_goals
    injection h with he
    intro hc
    rw [hc] at he
    exact List.noConfusion he

lemma cfgQueryBodyName_zodNonempty :
    ∀ el s, schemaGet cfgQueryBodyName el = some s →
      ∀ v errs, s v = SafeParseReturn.failure errs → errs ≠ [] := by
  intro el s hs
  cases el <;> simp [schemaGet, cfgQueryBodyName] at hs <;>
    (rw [← hs]; exact requireName_failure_nonempty)

/-- C3: with `return400ValidationError` false, every configured field is
extracted and validated regardless of earlier failures, the issue collection
holds at least one entry per failing field, each failing field's context slot
stays the default empty object, and the pre-handler (when present) and the
final handler (when the pre-handler does not throw) are invoked with this
context. -/
theorem claim_C3 (setup : Setup)
    (handler : HandlerContext → Except Thrown (Option NextResponse))
    (req : RequestModel) (cfg : SchemaCfg)
    (hcfg : setup.schema = some cfg)
    (h400 : effectiveReturn400 setup = false)
    (hne : ∀ el s, schemaGet cfg el = some s →
      ∀ v errs, s v = SafeParseReturn.failure errs → errs ≠ []) :
    (runApiHandler setup handler req).2.extracted = toBeParsedList setup.schema ∧
    (runApiHandler setup handler req).2.validated = toBeParsedList setup.schema ∧
    ((toBeParsedList setup.schema).filter
        (fun el => !(isFieldSuccess cfg false req el))).length ≤
      (loopOutOf setup req).ctx.errors.length ∧
    (∀ el ∈ toBeParsedList setup.schema, isFieldSuccess cfg false req el = false →
      (loopOutOf setup req).ctx.get el = emptyObj) ∧
    (∀ ph, setup.preHandler = some ph →
      (runApiHandler setup handler req).2.preHandlerCalledWith =
        some (loopOutOf setup req).ctx) ∧
    (setup.preHandler = none →
      (runApiHandler setup handler req).2.handlerCalledWith =
        some (loopOutOf setup req).ctx) ∧
    (∀ ph, setup.preHandler = some ph → ph (loopOutOf setup req).ctx = Except.ok () →
      (runApiHandler setup handler req).2.handlerCalledWith =
        some (loopOutOf setup req).ctx) := by
  have hlo : loopOutOf setup req =
      processFields cfg false req (toBeParsedList (some cfg)) (initialContext req) := by
    rw [loopOutOf_schema_some setup req cfg hcfg, h400]
  obtain ⟨hEarly, hExtr, hVal, hErr⟩ :=
    processFields_false_spec cfg req (toBeParsedList (some cfg)) (initialContext req)
  have hEarly' : (loopOutOf setup req).earlyReturn = none := by rw [hlo]; exact hEarly
  have hfilter : (toBeParsedList (some cfg)).filter
      (fun el => (schemaGet cfg el).isSome) = toBeParsedList (some cfg) := by
    rw [List.filter_eq_self]
    intro el hel
    rcases schemaGet_of_mem_toBeParsedList cfg el hel with ⟨s, hs⟩
    rw [hs]
    rfl
  have htrace : (runApiHandler setup handler req).2.extracted =
        (loopOutOf setup req).extracted ∧
      (runApiHandler setup handler req).2.validated = (loopOutOf setup req).validated := by
    cases hph : setup.preHandler with
    | none => rw [runApiHandler_noPre setup handler req hEarly' hph]; exact ⟨rfl, rfl⟩
    | some ph =>
      cases hres : ph (loopOutOf setup req).ctx with
      | ok u =>
        cases u
        rw [runApiHandler_preOk setup handler req ph hEarly' hph hres]
        exact ⟨rfl, rfl⟩
      | error t =>
        rw [runApiHandler_preThrow setup handler req ph t hEarly' hph hres]
        exact ⟨rfl, rfl⟩
  refine ⟨?_, ?_, ?_, ?_, ?_, ?_, ?_⟩
  · rw [htrace.1, hlo, hExtr, hcfg]
  · rw [htrace.2, hlo, hVal, hfilter, hcfg]
  · rw [hlo, hErr, hcfg]
    have hinit : (initialContext req).errors = [] := rfl
    rw [hinit, List.nil_append]
    apply issuesConcat_count
    intro el hel hfailEl
    rcases failIssues_of_not_success cfg false req el hel hfailEl with ⟨errs, hfr, hfi⟩
    rw [hfi]
    rcases schemaGet_of_mem_toBeParsedList cfg el hel with ⟨s, hs⟩
    have : s (extractedData false req el) = SafeParseReturn.failure errs := by
      unfold fieldParseResult at hfr
      rw [hs] at hfr
      simpa using hfr
    exact hne el s hs _ errs this
  · intro el hel hfailEl
    rw [hcfg] at hel
    rw [hlo, processFields_get_mem_false cfg req (toBeParsedList (some cfg))
      (initialContext req) el (toBeParsedList_nodup cfg) hel,
      successData_of_failure cfg false req el hfailEl]
    exact initialContext_get req el
  · intro ph hph
    cases hres : ph (loopOutOf setup req).ctx with
    | ok u =>
      cases u
      rw [runApiHandler_preOk setup handler req ph hEarly' hph hres]
    | error t =>
      rw [runApiHandler_preThrow setup handler req ph t hEarly' hph hres]
  · intro hph
    rw [runApiHandler_noPre setup handler req hEarly' hph]
  · intro ph hph hres
    rw [runApiHandler_preOk setup handler req ph hEarly' hph hres]

/-- C3 witness: schema `\x7bquery: requireName, body: requireName\x7d`, config
`\x7breturn400ValidationError: false\x7d`, a passing pre-handler, and a request
whose body is `\x7bname:'bob'\x7d` with no query parameters: the query field fails
but both fields are processed, one issue is recorded, the failing query slot
stays `\x7b\x7d`, the succeeding body slot holds the parsed data, and both
callbacks are invoked with that context. -/
theorem claim_C3_witness :
    effectiveReturn400 setupC3w = false ∧
    setupC3w.schema = some cfgQueryBodyName ∧
    (runApiHandler setupC3w handler0 reqNamedBody).2.extracted =
      [ValidationKeys.query, ValidationKeys.body] ∧
    (loopOutOf setupC3w reqNamedBody).ctx.errors =
      [⟨"Required", [PathElem.key "name"]⟩] ∧
    (loopOutOf setupC3w reqNamedBody).ctx.get ValidationKeys.query = emptyObj ∧
    (loopOutOf setupC3w reqNamedBody).ctx.get ValidationKeys.body =
      Json.obj [("name", Json.str "bob")] ∧
    ((runApiHandler setupC3w handler0 reqNamedBody).2.extracted =
        toBeParsedList setupC3w.schema ∧
      (runApiHandler setupC3w handler0 reqNamedBody).2.validated =
        toBeParsedList setupC3w.schema ∧
      ((toBeParsedList setupC3w.schema).filter
          (fun el => !(isFieldSuccess cfgQueryBodyName false reqNamedBody el))).length ≤
        (loopOutOf setupC3w reqNamedBody).ctx.errors.length ∧
      (∀ el ∈ toBeParsedList setupC3w.schema,
        isFieldSuccess cfgQueryBodyName false reqNamedBody el = false →
        (loopOutOf setupC3w reqNamedBody).ctx.get el = emptyObj) ∧
      (∀ ph, setupC3w.preHandler = some ph →
        (runApiHandler setupC3w handler0 reqNamedBody).2.preHandlerCalledWith =
          some (loopOutOf setupC3w reqNamedBody).ctx) ∧
      (setupC3w.preHandler = none →
        (runApiHandler setupC3w handler0 reqNamedBody).2.handlerCalledWith =
          some (loopOutOf setupC3w reqNamedBody).ctx) ∧
      (∀ ph, setupC3w.preHandler = some ph →
        ph (loopOutOf setupC3w reqNamedBody).ctx = Except.ok () →
        (runApiHandler setupC3w handler0 reqNamedBody).2.handlerCalledWith =
          some (loopOutOf setupC3w reqNamedBody).ctx)) :=
  ⟨rfl, rfl, rfl, rfl, rfl, rfl,
   claim_C3 setupC3w handler0 reqNamedBody cfgQueryBodyName rfl rfl
     cfgQueryBodyName_zodNonempty⟩

lemma runTrace_lists (setup : Setup)
    (handler : HandlerContext → Except Thrown (Option NextResponse))
    (req : RequestModel) :
    (runApiHandler setup handler req).2.extracted = (loopOutOf setup req).extracted ∧
    (runApiHandler setup handler req).2.validated = (loopOutOf setup req).validated := by
  cases hsc : (loopOutOf setup req).earlyReturn with
  | some resp =>
    rw [runApiHandler_early setup handler req resp hsc]; exact ⟨rfl, rfl⟩
  | none =>
    cases hph : setup.preHandler with
    | none => rw [runApiHandler_noPre setup handler req hsc hph]; exact ⟨rfl, rfl⟩
    | some ph =>
      cases hres : ph (loopOutOf setup req).ctx with
      | ok u =>
        cases u
        rw [runApiHandler_preOk setup handler req ph hsc hph hres]; exact ⟨rfl, rfl⟩
      | error t =>
        rw [runApiHandler_preThrow setup handler req ph t hsc hph hres]; exact ⟨rfl, rfl⟩

/-- C7 counterexample: with the schema object written as
`\x7bquery: ..., body: ...\x7d`, the run extracts query before body, which is not
the fixed canonical order body, segment, query, headers that the claim
asserts. -/
theorem claim_C7_counterexample :
    (runApiHandler setupC7 handler0 reqPlain).2.extracted =
      [ValidationKeys.query, ValidationKeys.body] ∧
    [ValidationKeys.query, ValidationKeys.body] ≠
      [ValidationKeys.body, ValidationKeys.query] :=
  ⟨rfl, by decide⟩

/-- C7 (amended): fields are extracted in the field-name enumeration order of
the setup descriptor's schema object (the processed fields always form a
prefix of that enumeration, and with `return400ValidationError` false the
whole enumeration is extracted and validated in that order); the order is
body, segment, query, headers only when the schema object enumerates them
that way, not canonically. -/
theorem claim_C7 (setup : Setup)
    (handler : HandlerContext → Except Thrown (Option NextResponse))
    (req : RequestModel) :
    (∃ rest, toBeParsedList setup.schema =
      (runApiHandler setup handler req).2.extracted ++ rest) ∧
    (effectiveReturn400 setup = false →
      (runApiHandler setup handler req).2.extracted = toBeParsedList setup.schema ∧
      (runApiHandler setup handler req).2.validated = toBeParsedList setup.schema) := by
  obtain ⟨hextr, hval⟩ := runTrace_lists setup handler req
  cases hcfg : setup.schema with
  | none =>
    rw [hextr, hval, loopOutOf_schema_none setup req hcfg]
    exact ⟨⟨[], rfl⟩, fun _ => ⟨rfl, rfl⟩⟩
  | some cfg =>
    have hlo := loopOutOf_schema_some setup req cfg hcfg
    constructor
    · rw [hextr, hlo]
      exact processFields_extracted_prefix cfg (effectiveReturn400 setup) req
        (toBeParsedList (some cfg)) (initialContext req)
    · intro h400
      rw [h400] at hlo
      obtain ⟨hEarly, hExtr, hVal, hErr⟩ :=
        processFields_false_spec cfg req (toBeParsedList (some cfg)) (initialContext req)
      have hfilter : (toBeParsedList (some cfg)).filter
          (fun el => (schemaGet cfg el).isSome) = toBeParsedList (some cfg) := by
        rw [List.filter_eq_self]
        intro el hel
        rcases schemaGet_of_mem_toBeParsedList cfg el hel with ⟨s, hs⟩
        rw [hs]
        rfl
      refine ⟨?_, ?_⟩
      · rw [hextr, hlo, hExtr]
      · rw [hval, hlo, hVal, hfilter]

/-- C7 witness (for the amended claim): with `return400ValidationError`
disabled and schema enumeration order query then body, the whole enumeration
is extracted and validated in exactly that order. -/
theorem claim_C7_witness :
    effectiveReturn400 setupC3w = false ∧
    toBeParsedList setupC3w.schema = [ValidationKeys.query, ValidationKeys.body] ∧
    (∃ rest, toBeParsedList setupC3w.schema =
      (runApiHandler setupC3w handler0 reqNamedBody).2.extracted ++ rest) ∧
    (runApiHandler setupC3w handler0 reqNamedBody).2.extracted =
      toBeParsedList setupC3w.schema ∧
    (runApiHandler setupC3w handler0 reqNamedBody).2.validated =
      toBeParsedList setupC3w.schema :=
  ⟨rfl, rfl, (claim_C7 setupC3w handler0 reqNamedBody).1,
   ((claim_C7 setupC3w handler0 reqNamedBody).2 rfl).1,
   ((claim_C7 setupC3w handler0 reqNamedBody).2 rfl).2⟩

/-- C8: whenever the pre-handler or the final handler observes the context,
all four per-field slots hold JSON objects (never undefined); slots without a
configured schema hold the initial empty object, and slots whose validation
failed under `return400ValidationError` false also hold it. -/
theorem claim_C8 (setup : Setup)
    (handler : HandlerContext → Except Thrown (Option NextResponse))
    (req : RequestModel) (ctx : HandlerContext)
    (hobs : (runApiHandler setup handler req).2.preHandlerCalledWith = some ctx ∨
      (runApiHandler setup handler req).2.handlerCalledWith = some ctx) :
    (∀ k, (ctx.get k).isObj = true) ∧
    (∀ k, k ∉ toBeParsedList setup.schema → ctx.get k = emptyObj) ∧
    (effectiveReturn400 setup = false → ∀ cfg, setup.schema = some cfg →
      ∀ k ∈ toBeParsedList setup.schema, isFieldSuccess cfg false req k = false →
        ctx.get k = emptyObj) := by
  have hc : ctx = (loopOutOf setup req).ctx := by
    cases hsc : (loopOutOf setup req).earlyReturn with
    | some resp =>
      rw [runApiHandler_early setup handler req resp hsc] at hobs
      rcases hobs with h | h
      · exact absurd h (by simp)
      · exact absurd h (by simp)
    | none =>
      cases hph : setup.preHandler with
      | none =>
        rw [runApiHandler_noPre setup handler req hsc hph] at hobs
        rcases hobs with h | h
        · exact absurd h (by simp)
        · exact (show (loopOutOf setup req).ctx = ctx by simpa using h).symm
      | some ph =>
        cases hres : ph (loopOutOf setup req).ctx with
        | ok u =>
          cases u
          rw [runApiHandler_preOk setup handler req ph hsc hph hres] at hobs
          rcases hobs with h | h
          · exact (show (loopOutOf setup req).ctx = ctx by simpa using h).symm
          · exact (show (loopOutOf setup req).ctx = ctx by simpa using h).symm
        | error t =>
          rw [runApiHandler_preThrow setup handler req ph t hsc hph hres] at hobs
          rcases hobs with h | h
          · exact (show (loopOutOf setup req).ctx = ctx by simpa using h).symm
          · exact absurd h (by simp)
  subst hc
  cases hcfg : setup.schema with
  | none =>
    rw [loopOutOf_schema_none setup req hcfg]
    refine ⟨fun k => by rw [initialContext_get]; rfl,
      fun k _ => initialContext_get req k, fun _ cfg hcfg' => ?_⟩
    exact Option.noConfusion hcfg'
  | some cfg =>
    have hlo := loopOutOf_schema_some setup req cfg hcfg
    refine ⟨?_, ?_, ?_⟩
    · intro k
      rw [hlo]
      exact processFields_get_isObj cfg (effectiveReturn400 setup) req
        (toBeParsedList (some cfg)) (initialContext req)
        (fun k' => by rw [initialContext_get]; rfl) k
    · intro k hk
      rw [hlo, processFields_get_notMem cfg (effectiveReturn400 setup) req
        (toBeParsedList (some cfg)) (initialContext req) k hk]
      exact initialContext_get req k
    · intro h400 cfg' hcfg' k hk hfailK
      have hcc : cfg' = cfg := by
        injection hcfg' with h
        exact h.symm
      subst hcc
      rw [h400] at hlo
      rw [hlo, processFields_get_mem_false cfg' req (toBeParsedList (some cfg'))
        (initialContext req) k (toBeParsedList_nodup cfg') hk,
        successData_of_failure cfg' false req k hfailK]
      exact initialContext_get req k

/-- C8 witness: with schema `\x7bquery: emptySchema, body: emptySchema\x7d` and a
plain request, the handler observes a context whose body and query slots are
the schemas' (object) outputs and whose segment and headers slots are the
initial empty objects. -/
theorem claim_C8_witness :
    ((runApiHandler setupC7 handler0 reqPlain).2.preHandlerCalledWith =
        some ⟨reqPlain, Json.obj [], Json.obj [], emptyObj, emptyObj, []⟩ ∨
      (runApiHandler setupC7 handler0 reqPlain).2.handlerCalledWith =
        some ⟨reqPlain, Json.obj [], Json.obj [], emptyObj, emptyObj, []⟩) ∧
    ((∀ k, ((⟨reqPlain, Json.obj [], Json.obj [], emptyObj, emptyObj, []⟩ :
        HandlerContext).get k).isObj = true) ∧
      (∀ k, k ∉ toBeParsedList setupC7.schema →
        (⟨reqPlain, Json.obj [], Json.obj [], emptyObj, emptyObj, []⟩ :
          HandlerContext).get k = emptyObj) ∧
      (effectiveReturn400 setupC7 = false → ∀ cfg, setupC7.schema = some cfg →
        ∀ k ∈ toBeParsedList setupC7.schema,
          isFieldSuccess cfg false reqPlain k = false →
          (⟨reqPlain, Json.obj [], Json.obj [], emptyObj, emptyObj, []⟩ :
            HandlerContext).get k = emptyObj)) :=
  ⟨Or.inr rfl, claim_C8 setupC7 handler0 reqPlain _ (Or.inr rfl)⟩

/-- C2: evaluation at the failing input.  With the schema
`\x7bbody: requireName\x7d`, default config, and the unparseable body `not-json`,
`getData` builds the invalid-JSON 400 response and returns it, but the loop
passes that `NextResponse` object to `safeParse` instead of returning it, so
the client receives a `validation_error`-shaped response produced by the
schema rejecting the response object -- not the specified
`\x7btype:'body', status:'error', message:'Invalid JSON body provided',
path:[]\x7d` body. -/
theorem claim_C2_codebug :
    (runApiHandler setupC2 handler0 reqBadBody).1 =
      Except.ok (RunResult.adapterResponse (NextResponse.json
        (Json.obj [("type", Json.str "body"), ("status", Json.str "validation_error"),
          ("message", Json.str "Required"), ("path", Json.arr [Json.str "name"])]) 400)) ∧
    (runApiHandler setupC2 handler0 reqBadBody).1 ≠
      Except.ok (RunResult.adapterResponse invalidJsonBodyResponse) := by
  refine ⟨rfl, fun h => ?_⟩
  have h1 : (runApiHandler setupC2 handler0 reqBadBody).1 =
      Except.ok (RunResult.adapterResponse (NextResponse.json
        (Json.obj [("type", Json.str "body"), ("status", Json.str "validation_error"),
          ("message", Json.str "Required"), ("path", Json.arr [Json.str "name"])]) 400)) := rfl
  rw [h1] at h
  simp only [invalidJsonBodyResponse] at h
  injection h with h2
  injection h2 with h3
  injection h3 with h4 h5
  injection h4 with h6
  simp at h6
